import Mathlib

/-!
# Verification of the EPLAN eVIEW extractor core

Shallow embedding of the claim-relevant parts of the repository:

* `eplan_extractor/utils/retry.py` — `retry_with_backoff`
* `eplan_extractor/core/cache.py` — `CacheManager`
* `eplan_extractor/core/extractor.py` — `SeleniumEPlanExtractor`
  (`ADDRESS_PATTERN`, `extract_current_plc_diagram_page`, `open_project`,
  `extract_variables`, `run_extraction`)

Python strings become `String`, Python dicts become insertion-ordered
association lists, machine floats used for delays/timestamps become `ℚ`
(the operations involved — `min`, `*`, doubling, subtraction, comparison —
are modelled exactly), and Python exceptions become explicit `Except`/`Bool`
outcomes.
-/

namespace EPlan

/-! ## The address grammar (`ADDRESS_PATTERN`)

`ADDRESS_PATTERN = r"\b([IQ]W?\d+\.\d+|[IQ]W\d+)\b"` compiled by Python `re`.
We model `\w` (hence `\b`) as ASCII alphanumeric or underscore and `\d` as
decimal digits, which is exact on the data the program handles. -/

/-- A regex word character (`\w`): letter, digit, or underscore. -/
def isWordChar (c : Char) : Bool := c.isAlphanum || c = '_'

/-- After `[IQ]` (and an optional `W`, indicated by `hasW`), the remainder of a
candidate token must be `\d+\.\d+`, or just `\d+` when the `W` branch
(`[IQ]W\d+`) is being used. -/
def tokenTail (hasW : Bool) (l : List Char) : Bool :=
  let p := l.span Char.isDigit
  !p.1.isEmpty &&
    match p.2 with
    | [] => hasW
    | '.' :: rest2 =>
      let q := rest2.span Char.isDigit
      !q.1.isEmpty && q.2.isEmpty
    | _ => false

/-- `isAddressToken l` holds iff the character list `l` is exactly one token of
the alternation `[IQ]W?\d+\.\d+|[IQ]W\d+`. -/
def isAddressToken : List Char → Bool
  | c :: 'W' :: rest => (c == 'I' || c == 'Q') && tokenTail true rest
  | c :: rest => (c == 'I' || c == 'Q') && tokenTail false rest
  | [] => false

/-- `matchFrom pre suf` decides whether some split `pre ++ suf` of the input
(with `pre` growing from the anchored start) makes `pre` a grammar token that
is followed by a word boundary.  `matchFrom [] s.data` is exactly Python's
`re.match(ADDRESS_PATTERN, s)` being non-`None`: the leading `\b` holds
automatically because every token starts with the word character `I`/`Q`. -/
def matchFrom : List Char → List Char → Bool
  | pre, [] => isAddressToken pre
  | pre, c :: cs => (isAddressToken pre && !isWordChar c) || matchFrom (pre ++ [c]) cs

/-- Python `re.match(ADDRESS_PATTERN, s) is not None` (anchored prefix match). -/
def reMatch (s : String) : Bool := matchFrom [] s.data

/-- `searchFrom prev l` scans every start position of `l`, requiring the word
boundary with the preceding character `prev` (`none` at the very start). -/
def searchFrom : Option Char → List Char → Bool
  | prev, [] => (match prev with | none => true | some c => !isWordChar c) && matchFrom [] []
  | prev, c :: cs =>
    ((match prev with | none => true | some p => !isWordChar p) && matchFrom [] (c :: cs)) ||
      searchFrom (some c) cs

/-- Python `re.search(ADDRESS_PATTERN, s) is not None`. -/
def reSearch (s : String) : Bool := searchFrom none s.data

/-! ## The per-row parse of `extract_current_plc_diagram_page`

For each SVG `g` row the code first checks `has_address` (any non-empty text
node whose text `re.search`-matches the pattern), then walks the text nodes:
empty nodes and nodes starting with `=` or `:` are skipped; a node that
`re.match`-es the pattern is assigned to `key`, any other node to `value`
(plain reassignment, so the last such node wins); finally
`if key and value and key not in extracted: extracted[key] = value`. -/

/-- A text node is skipped when falsy (empty) or starting with `=` or `:`
(character-level reading of `text.startswith`). -/
def skipNode (s : String) : Bool :=
  s.data.isEmpty || s.data.head? == some '=' || s.data.head? == some ':'

/-- The `key`/`value` pair after the row's node loop: both start as `None`
and each non-skipped node overwrites one of them. -/
def parseKV (row : List String) : Option String × Option String :=
  row.foldl
    (fun kv t =>
      if skipNode t then kv
      else if reMatch t then (some t, kv.2)
      else (kv.1, some t))
    (none, none)

/-- `has_address`: some text node is non-empty and `re.search`-matches. -/
def hasAddress (row : List String) : Bool :=
  row.any (fun t => !t.data.isEmpty && reSearch t)

/-- Result of one row of `extract_current_plc_diagram_page`, before the
per-page duplicate check: rows without an address hit are skipped, then the
final `key`/`value` (both truthy) form the pair. -/
def rowResult (row : List String) : Option (String × String) :=
  if hasAddress row then
    match parseKV row with
    | (some k, some v) => if !k.data.isEmpty && !v.data.isEmpty then some (k, v) else none
    | _ => none
  else none

/-- Extracted data of one page: an insertion-ordered association list
modelling the Python dict `extracted`. -/
abbrev ExtractedData := List (String × String)

/-- `extracted[key] = value` guarded by `key not in extracted`
(first occurrence wins). -/
def insertRow (acc : ExtractedData) (row : List String) : ExtractedData :=
  match rowResult row with
  | some kv => if (acc.map Prod.fst).contains kv.1 then acc else acc ++ [kv]
  | none => acc

/-- `extract_current_plc_diagram_page`, given the text rows of the current
diagram (the `g` groups of the qualifying `ev-svg-cad-content` bodies). -/
def extractPage (rows : List (List String)) : ExtractedData :=
  rows.foldl insertRow []

/-! Spec-side formulations used to compare the row parse with the claims. -/

/-- The spec's reading of the row parse (claim C3): among non-skipped nodes
the FIRST `re.match`-ing node is the key and the FIRST non-matching node is
the value. -/
def specParseRowFirst (row : List String) : Option (String × String) :=
  let rem := row.filter (fun t => !skipNode t)
  match rem.find? (fun t => reMatch t), rem.find? (fun t => !reMatch t) with
  | some k, some v => some (k, v)
  | _, _ => none

/-- The last non-skipped, `re.match`-ing node of a row. -/
def lastKeyNode (row : List String) : Option String :=
  (row.filter (fun t => !skipNode t && reMatch t)).getLast?

/-- The last non-skipped, non-matching node of a row. -/
def lastValueNode (row : List String) : Option String :=
  (row.filter (fun t => !skipNode t && !reMatch t)).getLast?

/-- Combine an optional key and value into a row result. -/
def combineKV : Option String → Option String → Option (String × String)
  | some k, some v => some (k, v)
  | _, _ => none

/-! ## `retry_with_backoff` (`eplan_extractor/utils/retry.py`)

The wrapped call runs `for attempt in range(max_retries + 1)`: a successful
attempt returns at once; an exception outside the configured `exceptions`
tuple propagates immediately; a retryable exception before the final attempt
sleeps `min(base_delay * 2 ** attempt, max_delay)` and retries; the final
attempt's retryable exception triggers the ERROR-level exhaustion log
(`"All n attempts failed"`, the `RetryExhausted` tag of the spec) after which
the loop ends and the original `last_exception` is re-raised.

The operation is modelled as a function from the attempt index to its
outcome, `retryable` as membership in the `exceptions` tuple, and delays as
exact rationals. -/

/-- Observable outcome of one `retry_with_backoff`-wrapped call: the returned
value or propagated exception, the number of invocations of the operation,
the list of back-off delays slept (in order), and whether the ERROR-level
exhaustion log was emitted. -/
structure RetryTrace (E A : Type) where
  result : Except E A
  calls : Nat
  delays : List ℚ
  exhausted : Bool
deriving Repr

/-- The retry loop from attempt index `attempt` on (`attempt ≤ maxRetries`
when entered; `maxRetries` plays the role of `max_retries`). -/
def retryGo (op : Nat → Except E A) (retryable : E → Bool) (base maxD : ℚ)
    (maxRetries : Nat) (attempt : Nat) : RetryTrace E A :=
  match op attempt with
  | .ok a => ⟨.ok a, 1, [], false⟩
  | .error e =>
    if retryable e then
      if h : attempt < maxRetries then
        let d := min (base * 2 ^ attempt) maxD
        let t := retryGo op retryable base maxD maxRetries (attempt + 1)
        ⟨t.result, t.calls + 1, d :: t.delays, t.exhausted⟩
      else ⟨.error e, 1, [], true⟩
    else ⟨.error e, 1, [], false⟩
termination_by maxRetries - attempt
decreasing_by omega

/-- `retry_with_backoff(max_retries, base_delay, max_delay, exceptions)`
applied to an operation: the wrapper starts at attempt 0. -/
def retryExecute (op : Nat → Except E A) (retryable : E → Bool)
    (base maxD : ℚ) (maxRetries : Nat) : RetryTrace E A :=
  retryGo op retryable base maxD maxRetries 0

/-! ## `CacheManager` (`eplan_extractor/core/cache.py`)

The in-memory dict `_cache : key → entry` is modelled as an
insertion-ordered association list.  `CACHE_ENABLED` is the constant `True`
from the configuration.  `_generate_key` is
`sha256(f"{project}:{page_name}")[:16]`; the hash is modelled by the hashed
content itself (a deterministic function of `project + ":" + page`, injective
in the model).  Timestamps are seconds since an epoch as exact rationals
(`datetime.isoformat` round-trips the stored time exactly); an entry's age in
hours is `(now - timestamp) / 3600` and `_is_entry_valid` compares it
strictly against `ttl_hours`.  Entries written by `set` always carry their
`project`, `page`, `timestamp` and `data` fields. -/

/-- `CACHE_ENABLED` from the configuration constants. -/
def CACHE_ENABLED : Bool := true

/-- One cache entry, as written by `CacheManager.set`. -/
structure CacheEntry where
  project : String
  page : String
  timestamp : ℚ
  data : ExtractedData
deriving DecidableEq, Repr

/-- The in-memory cache dict: key to entry, in insertion order. -/
abbrev CacheState := List (String × CacheEntry)

/-- `_generate_key`: the sha256-derived key, modelled by its pre-image
`f"{project}:{page_name}"`. -/
def generateKey (project page : String) : String := project ++ ":" ++ page

/-- `dict.get(key)` on the cache. -/
def lookupKey (c : CacheState) (k : String) : Option CacheEntry :=
  (c.find? (fun kv => kv.1 == k)).map Prod.snd

/-- `_is_entry_valid`: the entry's age in hours is strictly below the TTL.
(The code's `"timestamp" not in entry` guard cannot fire on entries written
by `set`, which always include a timestamp.) -/
def isEntryValid (ttlHours now : ℚ) (e : CacheEntry) : Bool :=
  decide ((now - e.timestamp) / 3600 < ttlHours)

/-- `CacheManager.get`: look the derived key up and return the entry's data
iff the entry exists and is valid.  The method only reads `_cache`; the
returned state is the unchanged input state. -/
def cacheGet (c : CacheState) (ttlHours now : ℚ) (project page : String) :
    Option ExtractedData × CacheState :=
  if !CACHE_ENABLED then (none, c)
  else
    match lookupKey c (generateKey project page) with
    | some e => (if isEntryValid ttlHours now e then some e.data else none, c)
    | none => (none, c)

/-- Python dict assignment `d[k] = e`: overwrite in place if the key exists,
else append. -/
def setKey (c : CacheState) (k : String) (e : CacheEntry) : CacheState :=
  if c.any (fun kv => kv.1 == k) then
    c.map (fun kv => if kv.1 == k then (k, e) else kv)
  else c ++ [(k, e)]

/-- `CacheManager.set`: overwrite the entry for the derived key with a fresh
timestamp. -/
def cacheSet (c : CacheState) (now : ℚ) (project page : String)
    (data : ExtractedData) : CacheState :=
  if !CACHE_ENABLED then c
  else setKey c (generateKey project page) ⟨project, page, now, data⟩

/-- Python `del d[key]`: remove the binding of `key` (dict keys are unique;
on the list model this erases the first binding). -/
def delKey (c : CacheState) (k : String) : CacheState :=
  c.eraseP (fun kv => kv.1 == k)

/-- `CacheManager.clear`: with no project, drop everything and return the
prior size; with a project, collect the keys whose entry's `project` field
equals it, delete each collected key, and return how many were collected. -/
def cacheClear (c : CacheState) (project : Option String) : Nat × CacheState :=
  match project with
  | none => (c.length, [])
  | some p =>
    let keysToRemove := (c.filter (fun kv => kv.2.project == p)).map Prod.fst
    (keysToRemove.length, keysToRemove.foldl delKey c)

/-! ## The sort of the flattened output (`extract_variables`, final part)

`flat_data.sort(key=lambda x: x[0])` sorts the `[address, variable]` pairs
stably, comparing only the address strings with Python's `<` (plain
lexicographic comparison by code point, exactly `String`'s linear order).
A stable sort by a fixed key is uniquely determined, so the stable
`List.insertionSort` computes the same list as Python's stable sort. -/

/-- Python's string `<=`: lexicographic comparison by code point, written as
an executable recursion over the character lists. -/
def charListLe : List Char → List Char → Bool
  | [], _ => true
  | _ :: _, [] => false
  | a :: as, b :: bs =>
    a.toNat < b.toNat || (a.toNat == b.toNat && charListLe as bs)

/-- Comparison used by the final sort: by address only. -/
def pairLe (a b : String × String) : Prop := charListLe a.1.data b.1.data = true

instance : DecidableRel pairLe := fun a b =>
  instDecidableEqBool (charListLe a.1.data b.1.data) true

instance : IsTotal (String × String) pairLe := by
  constructor
  intro x y
  show charListLe x.1.data y.1.data = true ∨ charListLe y.1.data x.1.data = true
  generalize x.1.data = as
  generalize y.1.data = bs
  induction as generalizing bs with
  | nil => left; rfl
  | cons a as ih =>
    cases bs with
    | nil => right; rfl
    | cons b bs =>
      rcases Nat.lt_trichotomy a.toNat b.toNat with h | h | h
      · left; simp [charListLe, h]
      · rcases ih bs with h2 | h2
        · left; simp [charListLe, h, h2]
        · right; simp [charListLe, h.symm, h2]
      · right; simp [charListLe, h]

instance : IsTrans (String × String) pairLe := by
  constructor
  intro x y z h1 h2
  show charListLe x.1.data z.1.data = true
  rw [pairLe] at h1 h2
  revert h1 h2
  generalize x.1.data = as
  generalize y.1.data = bs
  generalize z.1.data = cs
  induction as generalizing bs cs with
  | nil => intro h1 h2; rfl
  | cons a as ih =>
    intro h1 h2
    cases bs with
    | nil => exact absurd h1 (by simp [charListLe])
    | cons b bs =>
      cases cs with
      | nil => exact absurd h2 (by simp [charListLe])
      | cons c cs =>
        rw [charListLe] at h1 h2 ⊢
        simp only [Bool.or_eq_true, Bool.and_eq_true, decide_eq_true_eq,
          beq_iff_eq] at h1 h2 ⊢
        rcases h1 with h1 | ⟨h1e, h1r⟩ <;> rcases h2 with h2 | ⟨h2e, h2r⟩
        · exact Or.inl (Nat.lt_trans h1 h2)
        · exact Or.inl (h2e ▸ h1)
        · exact Or.inl (h1e ▸ h2)
        · exact Or.inr ⟨h1e.trans h2e, ih bs cs h1r h2r⟩

/-- `flat_data.sort(key=lambda x: x[0])`. -/
def sortPairs (l : List (String × String)) : List (String × String) :=
  l.insertionSort pairLe

/-! ## `open_project`

`open_project` is not wrapped by `retry_with_backoff` (unlike `setup_driver`
and `click_on_login_with_microsoft`).  It tries the XPath strategies for the
project number; if all come back empty it raises (caught by its own handler,
which logs and returns `False`).  It then clicks the project and scans all
buttons for one whose stripped lower-cased text contains "open" or "öffnen",
clicking the first such button whose safe click succeeds; if no such button
exists the scan simply ends and the method still returns `True`. -/

/-- `sub` occurs as a contiguous substring of `s` (Python's `in`). -/
def containsSub (s sub : List Char) : Bool :=
  s.tails.any (fun t => sub.isPrefixOf t)

/-- `"open" in btn_text or "öffnen" in btn_text` for
`btn_text = btn.text.strip().lower()`. -/
def isOpenLabel (s : String) : Bool :=
  let t := (s.trim.toLower).data
  containsSub t "open".data || containsSub t "öffnen".data

/-- A button on the project page: its text and whether
`_click_element_safely` succeeds on it. -/
structure Button where
  text : String
  clickOk : Bool
deriving DecidableEq

/-- The part of the page state `open_project` reads: whether any XPath
strategy finds a non-empty element list for the project number, and the
page's buttons. -/
structure ProjectPage where
  projectFound : Bool
  buttons : List Button
deriving DecidableEq

/-- The open-button scan: first button with a matching label whose click
succeeds (`break`); matching buttons whose click fails are passed over. -/
def findOpenButton : List Button → Option Button
  | [] => none
  | b :: bs => if isOpenLabel b.text && b.clickOk then some b else findOpenButton bs

/-- Outcome of `open_project`: the returned bool and which (if any) open
button was clicked. -/
structure OpenProjectResult where
  success : Bool
  clickedOpen : Option Button
deriving DecidableEq

/-- `open_project`: `False` iff the project was not found; a missing open
button does not fail the step. -/
def openProject (pg : ProjectPage) : OpenProjectResult :=
  if pg.projectFound then ⟨true, findOpenButton pg.buttons⟩
  else ⟨false, none⟩

/-! ## The scroll-extraction loop (`extract_variables`)

The virtualized list is modelled as a finite observation window of outer
iterations (`ScrollStep`s): the items realized in that iteration and the
scroll offset read after the `scrollTop += 400`.  Transient per-item
exceptions are modelled by two oracles on each item: `staleOnRefetch` (the
re-fetch or attribute reads raise — caught before any effect) and
`clickFails` (the click raises — caught after the page name was already
recorded).  `self.cache.get(self.project_number, ·)` during the loop is
abstracted as a fixed function of the page name, and `cache.set` calls are
recorded.  The cooperative stop flag is polled at the top of the outer
`while` and before each item; polls are numbered by a running counter and
the flag, once set, stays set (`checkStop` is monotone in the poll index). -/

/-- One entry of the virtualized page list as the loop sees it. -/
structure PageItem where
  staleOnRefetch : Bool
  isPlc : Bool
  name : Option String
  clickFails : Bool
  rows : List (List String)
deriving DecidableEq

/-- One outer iteration of the scroll loop: the realized items and the
scroll offset read after scrolling. -/
structure ScrollStep where
  items : List PageItem
  newHeight : Int
deriving DecidableEq

/-- Mutable state of `extract_variables`, plus the poll counter and whether
any `_check_stop()` poll returned `True`. -/
structure ScrollState where
  allExtracted : List ExtractedData
  extractedPages : List String
  cacheSets : List (String × ExtractedData)
  polls : Nat
  stopObserved : Bool
deriving DecidableEq

/-- The stop flag as seen by the polls: `some k` means `request_stop`'s write
becomes visible from poll number `k` on; `none` means it is never set. -/
def checkStop (stopAt : Option Nat) (poll : Nat) : Bool :=
  match stopAt with
  | none => false
  | some k => decide (k ≤ poll)

/-- One `_check_stop()` poll: returns the flag and advances the counter. -/
def pollStop (stopAt : Option Nat) (st : ScrollState) : Bool × ScrollState :=
  (checkStop stopAt st.polls,
   { st with polls := st.polls + 1,
             stopObserved := st.stopObserved || checkStop stopAt st.polls })

/-- The body of the per-item `try`: skip on re-fetch failure, skip non-PLC
items and missing or already-processed names; on a cache hit append the
cached data and the name; on a miss record the name FIRST, then click and
extract — a click failure is caught here, after the name was recorded. -/
def processItem (cg : String → Option ExtractedData) (st : ScrollState)
    (it : PageItem) : ScrollState :=
  if it.staleOnRefetch then st
  else if !it.isPlc then st
  else
    match it.name with
    | none => st
    | some nm =>
      if st.extractedPages.contains nm then st
      else
        match cg nm with
        | some d =>
          { st with allExtracted := st.allExtracted ++ [d],
                    extractedPages := st.extractedPages ++ [nm] }
        | none =>
          let st1 := { st with extractedPages := st.extractedPages ++ [nm] }
          if it.clickFails then st1
          else
            let data := extractPage it.rows
            { st1 with
              allExtracted := st1.allExtracted ++ [data],
              cacheSets := st1.cacheSets ++
                (if data.isEmpty then [] else [(nm, data)]) }

/-- The inner `for` over the realized items, with its stop poll before each
item (a positive poll `break`s the loop). -/
def processItems (cg : String → Option ExtractedData) (stopAt : Option Nat) :
    List PageItem → ScrollState → ScrollState
  | [], st => st
  | it :: its, st =>
    let p := pollStop stopAt st
    if p.1 then p.2
    else processItems cg stopAt its (processItem cg p.2 it)

/-- The outer `while not self._check_stop()` loop: poll, process the realized
items, scroll, and stop as soon as the offset stops advancing.  An exhausted
observation window also ends the loop. -/
def scrollLoop (cg : String → Option ExtractedData) (stopAt : Option Nat) :
    List ScrollStep → Int → ScrollState → ScrollState
  | [], _, st => st
  | step :: rest, lastHeight, st =>
    let p := pollStop stopAt st
    if p.1 then p.2
    else
      let st1 := processItems cg stopAt step.items p.2
      if step.newHeight == lastHeight then st1
      else scrollLoop cg stopAt rest step.newHeight st1

/-- The browser state `extract_variables` consumes: whether the
`cdk-virtual-scroll-viewport` container exists, and the scroll iterations. -/
structure ScrollWorld where
  containerFound : Bool
  steps : List ScrollStep
deriving DecidableEq

/-- Outcome of `extract_variables`: the returned bool, the flat sorted list
written to the output file (empty when the step failed before the loop), and
the final loop state. -/
structure ExtractResult where
  ok : Bool
  output : List (String × String)
  finalState : ScrollState
deriving DecidableEq

/-- Fresh loop state with the poll counter at `polls`. -/
def initialScrollState (polls : Nat) : ScrollState := ⟨[], [], [], polls, false⟩

/-- `extract_variables`: missing scroll container returns `False`
immediately; otherwise run the loop from offset `-1`, flatten every
extracted page's pairs and sort them by address. -/
def extractVariables (cg : String → Option ExtractedData) (stopAt : Option Nat)
    (w : ScrollWorld) (polls : Nat) : ExtractResult :=
  if !w.containerFound then ⟨false, [], initialScrollState polls⟩
  else
    let st := scrollLoop cg stopAt w.steps (-1) (initialScrollState polls)
    ⟨true, sortPairs st.allExtracted.flatten, st⟩

/-! ## `run_extraction`

The steps run strictly in sequence; `setup_driver` and
`click_on_login_with_microsoft` are `retry_with_backoff`-wrapped in the
source (their post-retry outcome is a `RunWorld` field; the wrapper itself is
verified separately via `retryExecute`), while `open_project`,
`switch_to_list_view` and `extract_variables` are called bare.  A step's
failure raises (`Failed to ...`), caught, logged and re-raised by
`run_extraction`'s handler; between consecutive steps `_check_stop()` is
polled and a positive poll returns `False`.  Polls are numbered 0–4 for the
five inter-step checkpoints; `extract_variables` continues the counter at
5. -/

/-- Which methods `run_extraction` invoked, in order. -/
inductive StepTag where
  | setupDriver | clickLogin | doLogin | openProj | switchView | extractVars
deriving DecidableEq, Repr

/-- The environment of one run: outcome of each navigation step, the project
page, the cache lookup function and the scroll world. -/
structure RunWorld where
  setupOk : Bool
  clickLoginOk : Bool
  loginOk : Bool
  projectPage : ProjectPage
  switchOk : Bool
  cacheGetFn : String → Option ExtractedData
  scroll : ScrollWorld

/-- Observable outcome of `run_extraction`: whether an exception escaped,
the returned bool otherwise, the exported output if the export ran, the
final poll counter, whether any poll saw the stop flag, and the invocation
trace. -/
structure RunResult where
  raised : Bool
  returned : Option Bool
  output : Option (List (String × String))
  finalPolls : Nat
  stopObserved : Bool
  trace : List StepTag

/-- `run_extraction`. -/
def runExtraction (w : RunWorld) (stopAt : Option Nat) : RunResult :=
  if !w.setupOk then ⟨true, none, none, 0, false, [.setupDriver]⟩
  else if checkStop stopAt 0 then
    ⟨false, some false, none, 1, true, [.setupDriver]⟩
  else if !w.clickLoginOk then
    ⟨true, none, none, 1, false, [.setupDriver, .clickLogin]⟩
  else if checkStop stopAt 1 then
    ⟨false, some false, none, 2, true, [.setupDriver, .clickLogin]⟩
  else if !w.loginOk then
    ⟨true, none, none, 2, false, [.setupDriver, .clickLogin, .doLogin]⟩
  else if checkStop stopAt 2 then
    ⟨false, some false, none, 3, true, [.setupDriver, .clickLogin, .doLogin]⟩
  else if !(openProject w.projectPage).success then
    ⟨true, none, none, 3, false, [.setupDriver, .clickLogin, .doLogin, .openProj]⟩
  else if checkStop stopAt 3 then
    ⟨false, some false, none, 4, true,
      [.setupDriver, .clickLogin, .doLogin, .openProj]⟩
  else if !w.switchOk then
    ⟨true, none, none, 4, false,
      [.setupDriver, .clickLogin, .doLogin, .openProj, .switchView]⟩
  else if checkStop stopAt 4 then
    ⟨false, some false, none, 5, true,
      [.setupDriver, .clickLogin, .doLogin, .openProj, .switchView]⟩
  else if !(extractVariables w.cacheGetFn stopAt w.scroll 5).ok then
    ⟨true, none, none,
      (extractVariables w.cacheGetFn stopAt w.scroll 5).finalState.polls,
      (extractVariables w.cacheGetFn stopAt w.scroll 5).finalState.stopObserved,
      [.setupDriver, .clickLogin, .doLogin, .openProj, .switchView, .extractVars]⟩
  else
    ⟨false, some true, some (extractVariables w.cacheGetFn stopAt w.scroll 5).output,
      (extractVariables w.cacheGetFn stopAt w.scroll 5).finalState.polls,
      (extractVariables w.cacheGetFn stopAt w.scroll 5).finalState.stopObserved,
      [.setupDriver, .clickLogin, .doLogin, .openProj, .switchView, .extractVars]⟩

/-- The spec's terminal `RunState` values. -/
inductive RunStatus where
  | Completed | Failed | Cancelled
deriving DecidableEq, Repr

/-- Modelled from the spec: the spec's `RunState` at run end.  `src/` has no
such enum — a run's outcome is only `run_extraction`'s bool/exception plus
the polled stop flag — so spec §7's "the run reports one of `Completed`,
`Failed` (with a cause), or `Cancelled` (with partial results preserved)" is
mapped onto those observables: an escaped exception is `Failed`; otherwise a
run during which a `_check_stop()` poll saw the stop request is `Cancelled`;
otherwise `Completed`. -/
def RunResult.status (r : RunResult) : RunStatus :=
  if r.raised then .Failed
  else if r.stopObserved then .Cancelled
  else .Completed

end EPlan

/-! # Theorems -/

namespace EPlan

theorem retryGo_calls_le (op : Nat → Except E A) (r : E → Bool) (b m : ℚ) (N : Nat) :
    ∀ a, a ≤ N → (retryGo op r b m N a).calls ≤ N + 1 - a :=
  retryGo.induct op r b m N
    (fun a => a ≤ N → (retryGo op r b m N a).calls ≤ N + 1 - a)
    (fun x v hop ha => by rw [retryGo, hop]; simp; omega)
    (fun x e hop hr hlt ih ha => by
      rw [retryGo, hop]; simp [hr, hlt]
      have := ih (by omega); omega)
    (fun x e hop hr hlt ha => by rw [retryGo, hop]; simp [hr, hlt]; omega)
    (fun x e hop hr ha => by rw [retryGo, hop]; simp [hr]; omega)

theorem retryGo_delays (op : Nat → Except E A) (r : E → Bool) (b m : ℚ) (N : Nat) :
    ∀ a, ∀ j, j < (retryGo op r b m N a).delays.length →
      (retryGo op r b m N a).delays.getD j 0 = min (b * 2 ^ (a + j)) m :=
  retryGo.induct op r b m N
    (fun a => ∀ j, j < (retryGo op r b m N a).delays.length →
      (retryGo op r b m N a).delays.getD j 0 = min (b * 2 ^ (a + j)) m)
    (fun x v hop j hj => by rw [retryGo, hop] at hj; simp at hj)
    (fun x e hop hr hlt ih j hj => by
      rw [retryGo, hop] at hj ⊢
      simp only [hr, hlt, if_true, dif_pos, if_pos] at hj ⊢
      cases j with
      | zero => simp
      | succ j =>
        simp only [List.getD_cons_succ]
        simp at hj
        have := ih j (by omega)
        rw [this]
        ring_nf)
    (fun x e hop hr hlt j hj => by rw [retryGo, hop] at hj; simp [hr, hlt] at hj)
    (fun x e hop hr j hj => by rw [retryGo, hop] at hj; simp [hr] at hj)

theorem retryGo_success (op : Nat → Except E A) (r : E → Bool) (b m : ℚ) (N : Nat)
    (k : Nat) (v : A) (hk : k ≤ N) (hok : op k = .ok v) :
    ∀ a, a ≤ k → (∀ i, a ≤ i → i < k → ∃ e, op i = .error e ∧ r e = true) →
      (retryGo op r b m N a).result = .ok v ∧
      (retryGo op r b m N a).calls = k + 1 - a ∧
      (retryGo op r b m N a).delays.length = k - a ∧
      (retryGo op r b m N a).exhausted = false :=
  retryGo.induct op r b m N
    (fun a => a ≤ k → (∀ i, a ≤ i → i < k → ∃ e, op i = .error e ∧ r e = true) →
      (retryGo op r b m N a).result = .ok v ∧
      (retryGo op r b m N a).calls = k + 1 - a ∧
      (retryGo op r b m N a).delays.length = k - a ∧
      (retryGo op r b m N a).exhausted = false)
    (fun x v' hop ha hfail => by
      have hxk : x = k := by
        by_contra hne
        obtain ⟨e, he, -⟩ := hfail x le_rfl (by omega)
        rw [hop] at he; exact Except.noConfusion he
      subst hxk
      rw [hok] at hop
      obtain rfl : v = v' := Except.ok.inj hop
      rw [retryGo, hok]
      simp)
    (fun x e hop hr hlt ih ha hfail => by
      have hxk : x < k := by
        rcases Nat.lt_or_ge x k with h | h
        · exact h
        · obtain rfl : x = k := by omega
          rw [hok] at hop; exact Except.noConfusion hop
      obtain ⟨h1, h2, h3, h4⟩ := ih (by omega) (fun i hi hik => hfail i (by omega) hik)
      rw [retryGo, hop]
      simp [hr, hlt, h1, h2, h3, h4]
      omega)
    (fun x e hop hr hlt ha hfail => by
      obtain rfl : x = k := by omega
      rw [hok] at hop; exact Except.noConfusion hop)
    (fun x e hop hr ha hfail => by
      rcases Nat.lt_or_ge x k with h | h
      · obtain ⟨e', he, hre⟩ := hfail x le_rfl h
        rw [hop] at he
        injection he with he'
        subst he'
        simp [hre] at hr
      · obtain rfl : x = k := by omega
        rw [hok] at hop; exact Except.noConfusion hop)

theorem retryGo_allfail (op : Nat → Except E A) (r : E → Bool) (b m : ℚ) (N : Nat)
    (eN : E) (hN : op N = .error eN) :
    ∀ a, a ≤ N → (∀ i, a ≤ i → i ≤ N → ∃ e, op i = .error e ∧ r e = true) →
      (retryGo op r b m N a).result = .error eN ∧
      (retryGo op r b m N a).calls = N + 1 - a ∧
      (retryGo op r b m N a).delays.length = N - a ∧
      (retryGo op r b m N a).exhausted = true :=
  retryGo.induct op r b m N
    (fun a => a ≤ N → (∀ i, a ≤ i → i ≤ N → ∃ e, op i = .error e ∧ r e = true) →
      (retryGo op r b m N a).result = .error eN ∧
      (retryGo op r b m N a).calls = N + 1 - a ∧
      (retryGo op r b m N a).delays.length = N - a ∧
      (retryGo op r b m N a).exhausted = true)
    (fun x v hop ha hfail => by
      obtain ⟨e, he, -⟩ := hfail x le_rfl ha
      rw [hop] at he; exact Except.noConfusion he)
    (fun x e hop hr hlt ih ha hfail => by
      obtain ⟨h1, h2, h3, h4⟩ := ih (by omega) (fun i hi hiN => hfail i (by omega) hiN)
      rw [retryGo, hop]
      simp [hr, hlt, h1, h2, h3, h4]
      omega)
    (fun x e hop hr hlt ha hfail => by
      obtain rfl : x = N := by omega
      rw [hN] at hop
      obtain rfl : eN = e := Except.error.inj hop
      rw [retryGo, hN]
      simp [hr, hlt])
    (fun x e hop hr ha hfail => by
      obtain ⟨e', he, hre⟩ := hfail x le_rfl (by omega)
      rw [hop] at he
      injection he with he'
      subst he'
      simp [hre] at hr)



/-- C1: for every operation, every `maxRetries = N ≥ 0` and every
`baseDelay`/`maxDelay`, `retry_with_backoff` invokes the operation at most
`N + 1` times; a successful attempt returns its result immediately with no
further invocations (an attempt `k` that succeeds after `k` retryable
failures gives exactly `k + 1` invocations); and the `j`-th delay slept
(the delay before 1-based attempt `k = j + 2`) equals
`min(baseDelay * 2 ^ j, maxDelay) = min(base * 2^(k-2), max)`. -/
theorem c1_retry_backoff_schedule (E A : Type) (op : Nat → Except E A)
    (r : E → Bool) (b m : ℚ) (N : Nat) :
    (retryExecute op r b m N).calls ≤ N + 1 ∧
    (∀ k v, k ≤ N → op k = .ok v →
      (∀ i, i < k → ∃ e, op i = .error e ∧ r e = true) →
      (retryExecute op r b m N).result = .ok v ∧
      (retryExecute op r b m N).calls = k + 1) ∧
    (∀ j, j < (retryExecute op r b m N).delays.length →
      (retryExecute op r b m N).delays.getD j 0 = min (b * 2 ^ j) m) := by
  refine ⟨?_, ?_, ?_⟩
  · simpa [retryExecute] using retryGo_calls_le op r b m N 0 (Nat.zero_le N)
  · intro k v hk hok hfail
    obtain ⟨h1, h2, -, -⟩ := retryGo_success op r b m N k v hk hok 0 (Nat.zero_le k)
      (fun i _ hik => hfail i hik)
    exact ⟨h1, by simpa [retryExecute] using h2⟩
  · intro j hj
    simpa [retryExecute] using retryGo_delays op r b m N 0 j hj

/-- Witness for C1 at a concrete input: the operation fails retryably on
attempt 0 and succeeds on attempt 1 with `maxRetries = 3`. -/
theorem c1_retry_backoff_schedule_witness :
    (retryExecute (fun i => if i = 0 then (.error 0 : Except Nat Nat) else .ok 42)
        (fun _ => true) 2 30 3).result = .ok 42 ∧
    (retryExecute (fun i => if i = 0 then (.error 0 : Except Nat Nat) else .ok 42)
        (fun _ => true) 2 30 3).calls = 2 :=
  (c1_retry_backoff_schedule Nat Nat
      (fun i => if i = 0 then (.error 0 : Except Nat Nat) else .ok 42)
      (fun _ => true) 2 30 3).2.1 1 42 (by omega) (by simp)
    (fun i hi => ⟨0, by
      obtain rfl : i = 0 := by omega
      simp, rfl⟩)


/-- C2: when the wrapped operation fails with a retryable error on all
`maxRetries + 1` attempts, the wrapper re-raises the last failure — the
original error of the final attempt — after exactly `maxRetries + 1`
invocations, and emits the ERROR-level exhaustion log (`RetryExhausted`
tag).  In particular `always_fails` with `maxRetries = 2` raises the
original error after exactly 3 invocations (see the witness). -/
theorem c2_retry_exhaustion (E A : Type) (op : Nat → Except E A) (r : E → Bool)
    (b m : ℚ) (N : Nat) (eN : E)
    (hall : ∀ i, i ≤ N → ∃ e, op i = .error e ∧ r e = true)
    (hN : op N = .error eN) :
    (retryExecute op r b m N).result = .error eN ∧
    (retryExecute op r b m N).calls = N + 1 ∧
    (retryExecute op r b m N).exhausted = true := by
  obtain ⟨h1, h2, -, h4⟩ := retryGo_allfail op r b m N eN hN 0 (Nat.zero_le N)
    (fun i _ hiN => hall i hiN)
  exact ⟨h1, by simpa [retryExecute] using h2, h4⟩

/-- Witness for C2: the claim's scenario — an operation that always fails,
wrapped with `maxRetries = 2`, `baseDelay = 0.01` — raises the original
error after exactly 3 invocations, with the exhaustion log emitted. -/
theorem c2_retry_exhaustion_witness :
    (retryExecute (fun _ => (.error 7 : Except Nat Unit)) (fun _ => true)
        (1 / 100) 30 2).result = .error 7 ∧
    (retryExecute (fun _ => (.error 7 : Except Nat Unit)) (fun _ => true)
        (1 / 100) 30 2).calls = 3 ∧
    (retryExecute (fun _ => (.error 7 : Except Nat Unit)) (fun _ => true)
        (1 / 100) 30 2).exhausted = true :=
  c2_retry_exhaustion Nat Unit (fun _ => .error 7) (fun _ => true) (1 / 100) 30 2 7
    (fun _ _ => ⟨7, rfl, rfl⟩) rfl



theorem getLast?_cons_or (a : α) (l : List α) :
    (a :: l).getLast? = l.getLast?.or (some a) := by
  rw [List.getLast?_cons]
  cases h : l.getLast? <;> simp

theorem parseKV_foldl (row : List String) :
    ∀ kv : Option String × Option String,
      row.foldl
        (fun kv t =>
          if skipNode t then kv
          else if reMatch t then (some t, kv.2)
          else (kv.1, some t)) kv
      = ((lastKeyNode row).or kv.1, (lastValueNode row).or kv.2) := by
  induction row with
  | nil => intro kv; simp [lastKeyNode, lastValueNode]
  | cons t ts ih =>
    intro kv
    simp only [List.foldl_cons]
    by_cases hs : skipNode t
    · rw [if_pos hs, ih kv]
      simp [lastKeyNode, lastValueNode, List.filter_cons, hs]
    · rw [if_neg hs]
      by_cases hm : reMatch t
      · rw [if_pos hm, ih]
        simp only [lastKeyNode, lastValueNode, List.filter_cons, hs, hm]
        simp only [Bool.not_true, Bool.not_false, Bool.and_true, Bool.and_false,
          Bool.true_and, Bool.false_and, if_true, if_false]
        rw [getLast?_cons_or, Option.or_assoc]
        simp
      · rw [if_neg hm, ih]
        simp only [lastKeyNode, lastValueNode, List.filter_cons, hs, hm]
        simp only [Bool.not_true, Bool.not_false, Bool.and_true, Bool.and_false,
          Bool.true_and, Bool.false_and, if_true, if_false]
        rw [getLast?_cons_or, Option.or_assoc]
        simp

theorem parseKV_eq (row : List String) :
    parseKV row = (lastKeyNode row, lastValueNode row) := by
  rw [parseKV, parseKV_foldl]
  simp


theorem reMatch_not_empty {t : String} (h : reMatch t = true) :
    t.data.isEmpty = false := by
  cases ht : t.data with
  | nil =>
    rw [reMatch, ht] at h
    exact absurd h (by decide)
  | cons c cs => simp

theorem reMatch_reSearch {t : String} (h : reMatch t = true) : reSearch t = true := by
  rw [reMatch] at h
  rw [reSearch]
  cases ht : t.data with
  | nil => rw [ht] at h; exact absurd h (by decide)
  | cons c cs =>
    rw [ht] at h
    simp [searchFrom, h]

theorem skipNode_false_not_empty {t : String} (h : skipNode t = false) :
    t.data.isEmpty = false := by
  rw [skipNode] at h
  simp at h
  simp [h.1.1]

theorem rowResult_eq_combine (row : List String) :
    rowResult row = combineKV (lastKeyNode row) (lastValueNode row) := by
  rw [rowResult, parseKV_eq]
  cases hk : lastKeyNode row with
  | none => cases hv : lastValueNode row <;> simp [combineKV]
  | some k =>
    cases hv : lastValueNode row with
    | none => simp [combineKV]
    | some v =>
      have hkmem : k ∈ row.filter (fun t => !skipNode t && reMatch t) := by
        apply List.mem_of_mem_getLast?
        rw [lastKeyNode] at hk
        rw [hk]; rfl
      have hvmem : v ∈ row.filter (fun t => !skipNode t && !reMatch t) := by
        apply List.mem_of_mem_getLast?
        rw [lastValueNode] at hv
        rw [hv]; rfl
      obtain ⟨hkrow, hkp⟩ := List.mem_filter.mp hkmem
      obtain ⟨hvrow, hvp⟩ := List.mem_filter.mp hvmem
      simp only [Bool.and_eq_true, Bool.not_eq_true'] at hkp hvp
      have hka : hasAddress row = true := by
        rw [hasAddress]
        rw [List.any_eq_true]
        exact ⟨k, hkrow, by simp [reMatch_not_empty hkp.2, reMatch_reSearch hkp.2]⟩
      rw [if_pos hka]
      simp [combineKV, reMatch_not_empty hkp.2, skipNode_false_not_empty hvp.1]



theorem rowResult_skip (t : String) (r1 r2 : List String) (h : skipNode t = true) :
    rowResult (r1 ++ t :: r2) = rowResult (r1 ++ r2) := by
  rw [rowResult_eq_combine, rowResult_eq_combine]
  have hkey : lastKeyNode (r1 ++ t :: r2) = lastKeyNode (r1 ++ r2) := by
    rw [lastKeyNode, lastKeyNode]
    rw [show t :: r2 = [t] ++ r2 from rfl]
    simp only [List.filter_append, List.filter_cons, List.filter_nil, h]
    simp
  have hval : lastValueNode (r1 ++ t :: r2) = lastValueNode (r1 ++ r2) := by
    rw [lastValueNode, lastValueNode]
    rw [show t :: r2 = [t] ++ r2 from rfl]
    simp only [List.filter_append, List.filter_cons, List.filter_nil, h]
    simp
  rw [hkey, hval]

theorem insertRow_keys_nodup (acc : ExtractedData) (row : List String)
    (h : (acc.map Prod.fst).Nodup) : ((insertRow acc row).map Prod.fst).Nodup := by
  rw [insertRow]
  cases hr : rowResult row with
  | none => exact h
  | some kv =>
    show (List.map Prod.fst
      (if (acc.map Prod.fst).contains kv.1 then acc else acc ++ [kv])).Nodup
    by_cases hc : (acc.map Prod.fst).contains kv.1
    · rw [if_pos hc]; exact h
    · rw [if_neg hc]
      rw [List.map_append]
      rw [List.nodup_append]
      refine ⟨h, List.nodup_singleton _, ?_⟩
      intro x hx hx1
      simp at hx1
      subst hx1
      exact hc (by
        rw [List.contains_eq_any_beq, List.any_eq_true]
        exact ⟨kv.1, hx, by simp⟩)

theorem extractPage_foldl_keys_nodup (rows : List (List String)) :
    ∀ acc : ExtractedData, (acc.map Prod.fst).Nodup →
      ((rows.foldl insertRow acc).map Prod.fst).Nodup := by
  induction rows with
  | nil => intro acc h; exact h
  | cons row rows ih =>
    intro acc h
    rw [List.foldl_cons]
    exact ih _ (insertRow_keys_nodup acc row h)



/-- C3, counterexample: in the row `["I1.0", "Motor", "I2.0", "Pump"]` every
node survives the skip filter, `"I1.0"` is the FIRST matching node and
`"Motor"` the FIRST non-matching node, so the claim predicts
`("I1.0", "Motor")` (the reading `specParseRowFirst`); the code returns
`("I2.0", "Pump")` instead. -/
theorem c3_first_node_counterexample :
    rowResult ["I1.0", "Motor", "I2.0", "Pump"] = some ("I2.0", "Pump") ∧
    specParseRowFirst ["I1.0", "Motor", "I2.0", "Pump"] = some ("I1.0", "Motor") ∧
    rowResult ["I1.0", "Motor", "I2.0", "Pump"] ≠
      specParseRowFirst ["I1.0", "Motor", "I2.0", "Pump"] := by
  refine ⟨by decide, by decide, by decide⟩

/-- C3, amended: the per-row parse skips nodes that are empty or begin with
`=` or `:`; among the remaining nodes the LAST node matching the address
grammar at its start becomes the key and the LAST non-matching node becomes
the value; a row yields no result if no key or no value is found; and per
page, a key already emitted is silently dropped (first occurrence wins), so
page keys are duplicate-free and a row only extends the page data when its
key is fresh. -/
theorem c3_row_parse_amended :
    (∀ row, rowResult row = combineKV (lastKeyNode row) (lastValueNode row)) ∧
    (∀ t r1 r2, skipNode t = true →
      rowResult (r1 ++ t :: r2) = rowResult (r1 ++ r2)) ∧
    (∀ rows, ((extractPage rows).map Prod.fst).Nodup) ∧
    (∀ rows row, extractPage (rows ++ [row]) = insertRow (extractPage rows) row) := by
  refine ⟨rowResult_eq_combine, rowResult_skip, ?_, ?_⟩
  · intro rows
    exact extractPage_foldl_keys_nodup rows [] (by simp)
  · intro rows row
    rw [extractPage, extractPage, List.foldl_append]
    rfl

/-- Witness for C3's amended statement at a concrete input: a `=`-prefixed
reference node is skipped and does not change the row's parse. -/
theorem c3_row_parse_amended_witness :
    rowResult ["=ref", "I1.0", "Val"] = rowResult ["I1.0", "Val"] :=
  c3_row_parse_amended.2.1 "=ref" [] ["I1.0", "Val"] (by decide)

/-- C4, counterexample: the node `"I1.0 x"` `re.match`-es the pattern (the
token `I1.0` is followed by a word boundary), and the code stores THE WHOLE
NODE TEXT as the key, so the returned key `"I1.0 x"` does not match the
address grammar exactly. -/
theorem c4_exact_grammar_counterexample :
    rowResult ["I1.0 x", "b"] = some ("I1.0 x", "b") ∧
    isAddressToken ("I1.0 x").data = false := by
  refine ⟨by decide, by decide⟩

/-- C4, amended: every key the per-row parse returns `re.match`-es the
address pattern — it begins with a grammar token followed by a word
boundary — and is non-empty, but it need not equal a grammar token exactly
(the whole text node is returned, possibly with trailing text). -/
theorem c4_key_grammar_amended (row : List String) (k v : String)
    (h : rowResult row = some (k, v)) :
    reMatch k = true ∧ k.data.isEmpty = false := by
  rw [rowResult_eq_combine] at h
  rcases hk : lastKeyNode row with - | k2
  · rw [hk] at h; simp [combineKV] at h
  · rcases hv : lastValueNode row with - | v2
    · rw [hk, hv] at h; simp [combineKV] at h
    · rw [hk, hv] at h
      rw [combineKV] at h
      have hpair : k2 = k ∧ v2 = v := by
        have := Option.some.inj h
        exact ⟨congrArg Prod.fst this, congrArg Prod.snd this⟩
      obtain ⟨rfl, -⟩ := hpair
      have hkmem : k2 ∈ row.filter (fun t => !skipNode t && reMatch t) := by
        apply List.mem_of_mem_getLast?
        rw [lastKeyNode] at hk
        rw [hk]; rfl
      obtain ⟨-, hkp⟩ := List.mem_filter.mp hkmem
      simp only [Bool.and_eq_true, Bool.not_eq_true'] at hkp
      exact ⟨hkp.2, reMatch_not_empty hkp.2⟩

/-- Witness for C4's amended statement at a concrete row. -/
theorem c4_key_grammar_amended_witness :
    reMatch "I1.0" = true ∧ ("I1.0" : String).data.isEmpty = false :=
  c4_key_grammar_amended ["I1.0", "Val"] "I1.0" "Val" (by decide)



theorem lookupKey_map_overwrite (k : String) (e : CacheEntry) :
    ∀ c : CacheState, c.any (fun kv => kv.1 == k) = true →
      lookupKey (c.map (fun kv => if kv.1 == k then (k, e) else kv)) k = some e := by
  intro c
  induction c with
  | nil => intro h; simp at h
  | cons kv c' ih =>
    intro h
    simp only [List.map_cons]
    by_cases hk : (kv.1 == k) = true
    · rw [if_pos hk]
      rw [lookupKey]
      simp [List.find?_cons]
    · rw [if_neg hk]
      have h' : c'.any (fun kv => kv.1 == k) = true := by
        rw [List.any_cons] at h
        rcases Bool.or_eq_true_iff.mp h with h1 | h1
        · exact absurd h1 hk
        · exact h1
      rw [lookupKey, List.find?_cons]
      rw [Bool.not_eq_true] at hk
      rw [hk]
      simpa [lookupKey] using ih h'

theorem lookupKey_setKey_self (c : CacheState) (k : String) (e : CacheEntry) :
    lookupKey (setKey c k e) k = some e := by
  rw [setKey]
  by_cases h : c.any (fun kv => kv.1 == k) = true
  · rw [if_pos h]
    exact lookupKey_map_overwrite k e c h
  · rw [if_neg h]
    rw [lookupKey, List.find?_append]
    have hnone : c.find? (fun kv => kv.1 == k) = none := by
      rw [List.find?_eq_none]
      intro kv hkv
      intro hc
      exact h (List.any_eq_true.mpr ⟨kv, hkv, hc⟩)
    rw [hnone]
    simp [List.find?_cons]


/-- C5: `CacheManager.get` returns the stored data iff an entry exists for
the derived key and its age `(now - timestamp) / 3600` is strictly below
`ttl_hours`; the boundary is strict — an entry written at `t` is returned at
`t + ttl·3600 - ε` (ε > 0) and not returned at `t + ttl·3600 + ε` (ε ≥ 0,
including the boundary instant itself) — and `get` never removes or alters
any entry of the store. -/
theorem c5_cache_get_ttl :
    (∀ (c : CacheState) (ttl now : ℚ) (p pg : String) (e : CacheEntry),
      lookupKey c (generateKey p pg) = some e →
      ((cacheGet c ttl now p pg).1 = some e.data ↔ (now - e.timestamp) / 3600 < ttl)) ∧
    (∀ (c : CacheState) (ttl now : ℚ) (p pg : String),
      lookupKey c (generateKey p pg) = none → (cacheGet c ttl now p pg).1 = none) ∧
    (∀ (c : CacheState) (t ttl ε : ℚ) (p pg : String) (d : ExtractedData),
      0 < ε →
      (cacheGet (cacheSet c t p pg d) ttl (t + ttl * 3600 - ε) p pg).1 = some d) ∧
    (∀ (c : CacheState) (t ttl ε : ℚ) (p pg : String) (d : ExtractedData),
      0 ≤ ε →
      (cacheGet (cacheSet c t p pg d) ttl (t + ttl * 3600 + ε) p pg).1 = none) ∧
    (∀ (c : CacheState) (ttl now : ℚ) (p pg : String),
      (cacheGet c ttl now p pg).2 = c) := by
  have h36 : (0 : ℚ) < 3600 := by norm_num
  refine ⟨?_, ?_, ?_, ?_, ?_⟩
  · intro c ttl now p pg e h
    simp only [cacheGet, CACHE_ENABLED, Bool.not_true, Bool.false_eq_true, if_false, h]
    rw [isEntryValid]
    by_cases hlt : (now - e.timestamp) / 3600 < ttl
    · simp [hlt]
    · simp [hlt]
  · intro c ttl now p pg h
    simp only [cacheGet, CACHE_ENABLED, Bool.not_true, Bool.false_eq_true, if_false, h]
  · intro c t ttl ε p pg d hε
    have hl := lookupKey_setKey_self c (generateKey p pg) ⟨p, pg, t, d⟩
    simp only [cacheGet, cacheSet, CACHE_ENABLED, Bool.not_true, Bool.false_eq_true,
      if_false, hl]
    rw [isEntryValid]
    rw [if_pos]
    apply decide_eq_true
    show (t + ttl * 3600 - ε - t) / 3600 < ttl
    rw [div_lt_iff₀ h36]
    linarith
  · intro c t ttl ε p pg d hε
    have hl := lookupKey_setKey_self c (generateKey p pg) ⟨p, pg, t, d⟩
    simp only [cacheGet, cacheSet, CACHE_ENABLED, Bool.not_true, Bool.false_eq_true,
      if_false, hl]
    rw [isEntryValid]
    rw [if_neg]
    intro hdec
    have := of_decide_eq_true hdec
    rw [div_lt_iff₀ h36] at this
    simp only at this
    linarith
  · intro c ttl now p pg
    rcases hl : lookupKey c (generateKey p pg) with - | e <;>
      simp [cacheGet, CACHE_ENABLED, hl]

/-- Witness for C5's boundary statements at the spec's scenario data:
project `TEST001`, page `Page1`, written at `t = 0` with `ttl = 24` hours;
returned one second before expiry, not returned one second after. -/
theorem c5_cache_get_ttl_witness :
    (cacheGet (cacheSet [] 0 "TEST001" "Page1"
        [("IW1.0", "Motor_Start"), ("QW2.1", "Valve_Open")])
        24 (0 + 24 * 3600 - 1) "TEST001" "Page1").1
      = some [("IW1.0", "Motor_Start"), ("QW2.1", "Valve_Open")] ∧
    (cacheGet (cacheSet [] 0 "TEST001" "Page1"
        [("IW1.0", "Motor_Start"), ("QW2.1", "Valve_Open")])
        24 (0 + 24 * 3600 + 1) "TEST001" "Page1").1 = none :=
  ⟨c5_cache_get_ttl.2.2.1 [] 0 24 1 "TEST001" "Page1"
      [("IW1.0", "Motor_Start"), ("QW2.1", "Valve_Open")] (by norm_num),
    c5_cache_get_ttl.2.2.2.1 [] 0 24 1 "TEST001" "Page1"
      [("IW1.0", "Motor_Start"), ("QW2.1", "Valve_Open")] (by norm_num)⟩



theorem delKey_eq_filter (k : String) :
    ∀ c : CacheState, (c.map Prod.fst).Nodup →
      delKey c k = c.filter (fun kv => !(kv.1 == k)) := by
  intro c
  induction c with
  | nil => intro h; rfl
  | cons kv c' ih =>
    intro h
    rw [List.map_cons, List.nodup_cons] at h
    rw [delKey, List.eraseP_cons, List.filter_cons]
    by_cases hk : (kv.1 == k) = true
    · rw [hk]
      simp only [cond_true, Bool.not_true, Bool.false_eq_true, if_false]
      have : kv.1 = k := by simpa using hk
      subst this
      symm
      rw [List.filter_eq_self]
      intro x hx
      simp only [Bool.not_eq_true']
      by_contra hc
      simp only [Bool.not_eq_false] at hc
      have : x.1 = kv.1 := by simpa using hc
      exact h.1 (this ▸ List.mem_map_of_mem Prod.fst hx)
    · rw [Bool.not_eq_true] at hk
      rw [hk]
      simp only [cond_false, Bool.not_false, if_true]
      rw [← delKey, ih h.2]

theorem foldl_delKey_eq_filter :
    ∀ (ks : List String) (c : CacheState), (c.map Prod.fst).Nodup →
      ks.foldl delKey c = c.filter (fun kv => !(ks.contains kv.1)) := by
  intro ks
  induction ks with
  | nil =>
    intro c h
    simp [List.foldl_nil]
  | cons k ks ih =>
    intro c h
    rw [List.foldl_cons]
    have hnd : ((delKey c k).map Prod.fst).Nodup := by
      rw [delKey]
      exact List.Nodup.sublist (List.Sublist.map Prod.fst (List.eraseP_sublist c)) h
    rw [ih (delKey c k) hnd, delKey_eq_filter k c h, List.filter_filter]
    apply List.filter_congr
    intro kv hkv
    rw [List.contains_cons]
    cases hkk : kv.1 == k <;> cases hks : ks.contains kv.1 <;> simp [hkk, hks]


/-- C6: with a project argument, `CacheManager.clear` removes exactly the
entries whose stored `project` field equals the argument — the resulting
store is the original filtered to the non-matching entries, unchanged and in
order — and returns the number of matching entries; with no argument it
removes all entries and returns the prior total count. -/
theorem c6_cache_clear :
    (∀ (c : CacheState) (p : String), (c.map Prod.fst).Nodup →
      (cacheClear c (some p)).2 = c.filter (fun kv => !(kv.2.project == p)) ∧
      (cacheClear c (some p)).1 = (c.filter (fun kv => kv.2.project == p)).length) ∧
    (∀ c : CacheState, cacheClear c none = (c.length, [])) := by
  constructor
  · intro c p hnd
    constructor
    · show ((c.filter (fun kv => kv.2.project == p)).map Prod.fst).foldl delKey c = _
      rw [foldl_delKey_eq_filter _ c hnd]
      apply List.filter_congr
      intro kv hkv
      congr 1
      cases hp : kv.2.project == p
      · apply Bool.eq_false_iff.mpr
        intro hc
        rw [List.contains_eq_any_beq, List.any_eq_true] at hc
        obtain ⟨x, hx, hbeq⟩ := hc
        obtain ⟨kv', hkv', hfst⟩ := List.mem_map.mp hx
        obtain ⟨hkv'c, hp'⟩ := List.mem_filter.mp hkv'
        have hfeq : kv.1 = kv'.1 := by
          have : kv.1 = x := by simpa using hbeq
          rw [this, hfst]
        have : kv = kv' := List.inj_on_of_nodup_map hnd hkv hkv'c hfeq
        rw [this] at hp
        rw [hp'] at hp
        exact Bool.noConfusion hp
      · rw [List.contains_eq_any_beq, List.any_eq_true]
        exact ⟨kv.1, List.mem_map_of_mem Prod.fst (List.mem_filter.mpr ⟨hkv, hp⟩),
          by simp⟩
    · show ((c.filter (fun kv => kv.2.project == p)).map Prod.fst).length = _
      rw [List.length_map]
  · intro c
    rfl

/-- Witness for C6 at a concrete store: clearing project `A` removes exactly
its two entries and leaves project `B`'s entry untouched. -/
theorem c6_cache_clear_witness :
    (cacheClear
        [("k1", ⟨"A", "P1", 0, []⟩), ("k2", ⟨"B", "P2", 0, []⟩),
         ("k3", ⟨"A", "P3", 0, []⟩)] (some "A")).2
      = [("k2", ⟨"B", "P2", 0, []⟩)] ∧
    (cacheClear
        [("k1", ⟨"A", "P1", 0, []⟩), ("k2", ⟨"B", "P2", 0, []⟩),
         ("k3", ⟨"A", "P3", 0, []⟩)] (some "A")).1 = 2 := by
  have h := c6_cache_clear.1
    [("k1", ⟨"A", "P1", 0, []⟩), ("k2", ⟨"B", "P2", 0, []⟩),
     ("k3", ⟨"A", "P3", 0, []⟩)] "A" (by decide)
  obtain ⟨h1, h2⟩ := h
  constructor
  · rw [h1]; rfl
  · rw [h2]; rfl


theorem runExtraction_trace_openProj_once (w : RunWorld) (stopAt : Option Nat) :
    (runExtraction w stopAt).trace.count .openProj ≤ 1 := by
  rw [runExtraction]
  by_cases h1 : (!w.setupOk) = true
  · rw [if_pos h1]; decide
  rw [if_neg h1]
  by_cases h2 : checkStop stopAt 0 = true
  · rw [if_pos h2]; decide
  rw [if_neg h2]
  by_cases h3 : (!w.clickLoginOk) = true
  · rw [if_pos h3]; decide
  rw [if_neg h3]
  by_cases h4 : checkStop stopAt 1 = true
  · rw [if_pos h4]; decide
  rw [if_neg h4]
  by_cases h5 : (!w.loginOk) = true
  · rw [if_pos h5]; decide
  rw [if_neg h5]
  by_cases h6 : checkStop stopAt 2 = true
  · rw [if_pos h6]; decide
  rw [if_neg h6]
  by_cases h7 : (!(openProject w.projectPage).success) = true
  · rw [if_pos h7]; decide
  rw [if_neg h7]
  by_cases h8 : checkStop stopAt 3 = true
  · rw [if_pos h8]; decide
  rw [if_neg h8]
  by_cases h9 : (!w.switchOk) = true
  · rw [if_pos h9]; decide
  rw [if_neg h9]
  by_cases h10 : checkStop stopAt 4 = true
  · rw [if_pos h10]; decide
  rw [if_neg h10]
  by_cases h11 : (!(extractVariables w.cacheGetFn stopAt w.scroll 5).ok) = true
  · rw [if_pos h11]
    show List.count StepTag.openProj
      [StepTag.setupDriver, StepTag.clickLogin, StepTag.doLogin, StepTag.openProj,
        StepTag.switchView, StepTag.extractVars] ≤ 1
    decide
  rw [if_neg h11]
  show List.count StepTag.openProj
    [StepTag.setupDriver, StepTag.clickLogin, StepTag.doLogin, StepTag.openProj,
      StepTag.switchView, StepTag.extractVars] ≤ 1
  decide

/-- C7, counterexample: a run in which the project is found but NO button
carries an "open"/"öffnen" label — `open_project` nevertheless returns
`True` without clicking anything, and the run proceeds to completion instead
of failing.  This refutes the claim's second half ("failure to locate the
'open'-labeled control ... the run immediately fails"). -/
theorem c7_open_button_counterexample :
    (openProject ⟨true, []⟩).success = true ∧
    (openProject ⟨true, []⟩).clickedOpen = none ∧
    (runExtraction
        ⟨true, true, true, ⟨true, []⟩, true, fun _ => none, ⟨true, []⟩⟩
        none).status = .Completed := by
  refine ⟨by decide, by decide, by decide⟩

/-- C7, amended: `open_project` is invoked at most once per run (it is not
retry-wrapped); failure to locate the target project identifier after all
XPath strategies is a non-retryable domain failure — the run raises and
fails immediately, with no later step invoked; but failure to locate an
"open"-labeled control is tolerated: whenever the project is found the step
succeeds, clicked open button or not. -/
theorem c7_open_project_amended :
    (∀ (w : RunWorld) (stopAt : Option Nat),
      (runExtraction w stopAt).trace.count .openProj ≤ 1) ∧
    (∀ w : RunWorld, w.setupOk = true → w.clickLoginOk = true → w.loginOk = true →
      w.projectPage.projectFound = false →
      (openProject w.projectPage).success = false ∧
      (runExtraction w none).raised = true ∧
      (runExtraction w none).status = .Failed ∧
      (runExtraction w none).trace = [.setupDriver, .clickLogin, .doLogin, .openProj]) ∧
    (∀ pg : ProjectPage, pg.projectFound = true → (openProject pg).success = true) := by
  refine ⟨runExtraction_trace_openProj_once, ?_, ?_⟩
  · intro w h1 h2 h3 h4
    have hop : openProject w.projectPage = ⟨false, none⟩ := by
      rw [openProject, if_neg]
      rw [h4]
      exact Bool.noConfusion
    refine ⟨by rw [hop], ?_, ?_, ?_⟩ <;>
      simp [runExtraction, h1, h2, h3, hop, checkStop, RunResult.status]
  · intro pg h
    rw [openProject, if_pos h]

/-- Witness for C7's amended statement: a world whose project page lacks the
project — the run fails right after `open_project`, which ran once. -/
theorem c7_open_project_amended_witness :
    (openProject (⟨false, []⟩ : ProjectPage)).success = false ∧
    (runExtraction
        ⟨true, true, true, ⟨false, []⟩, true, fun _ => none, ⟨true, []⟩⟩
        none).raised = true ∧
    (runExtraction
        ⟨true, true, true, ⟨false, []⟩, true, fun _ => none, ⟨true, []⟩⟩
        none).status = .Failed ∧
    (runExtraction
        ⟨true, true, true, ⟨false, []⟩, true, fun _ => none, ⟨true, []⟩⟩
        none).trace = [.setupDriver, .clickLogin, .doLogin, .openProj] :=
  c7_open_project_amended.2.1
    ⟨true, true, true, ⟨false, []⟩, true, fun _ => none, ⟨true, []⟩⟩
    rfl rfl rfl rfl



theorem char_lt_iff_toNat_lt {a b : Char} : a < b ↔ a.toNat < b.toNat := Iff.rfl

theorem charListLe_iff : ∀ as bs : List Char, charListLe as bs = true ↔ as ≤ bs := by
  have hiff : ∀ as bs : List Char, charListLe as bs = true ↔ ¬ List.Lex (· < ·) bs as := by
    intro as
    induction as with
    | nil =>
      intro bs
      constructor
      · intro _ hlex
        exact List.Lex.not_nil_right _ _ hlex
      · intro _; rfl
    | cons a as ih =>
      intro bs
      cases bs with
      | nil =>
        constructor
        · intro h; exact absurd h (by simp [charListLe])
        · intro h; exact absurd List.Lex.nil h
      | cons b bs =>
        rw [charListLe]
        simp only [Bool.or_eq_true, Bool.and_eq_true, decide_eq_true_eq, beq_iff_eq]
        constructor
        · rintro (h | ⟨he, hr⟩) hlex
          · cases hlex with
            | rel hba =>
              rw [char_lt_iff_toNat_lt] at hba
              omega
            | cons hl =>
              omega
          · cases hlex with
            | rel hba =>
              rw [char_lt_iff_toNat_lt] at hba
              omega
            | cons hl =>
              exact ((ih bs).mp hr) hl
        · intro hnlex
          rcases Nat.lt_trichotomy a.toNat b.toNat with h | h | h
          · exact Or.inl h
          · refine Or.inr ⟨h, (ih bs).mpr ?_⟩
            intro hlex
            have hab : a = b := by
              apply Char.ext
              exact UInt32.ext h
            subst hab
            exact hnlex (List.Lex.cons hlex)
          · exact absurd (List.Lex.rel (char_lt_iff_toNat_lt.mpr h)) hnlex
  intro as bs
  rw [hiff as bs]
  constructor
  · intro h
    exact le_of_not_lt h
  · intro h
    exact not_lt_of_le h

theorem stringLe_iff (a b : String) : charListLe a.data b.data = true ↔ a ≤ b := by
  rw [charListLe_iff, String.le_iff_toList_le]
  rfl


/-- C9: the final output of `extract_variables` is a permutation of the
flattening of all processed pages' `(address, variable)` pairs (so pairs from
different pages are never deduplicated against each other), sorted by address
under `pairLe`; `pairLe` is plain lexicographic string ordering (it coincides
with `String`'s linear order on the address component); the ordering is not
numeric-aware — `"I10.0"` sorts strictly before `"I2.0"` — and a concrete
two-page world with identical pairs keeps both copies in the output. -/
theorem c9_output_sorted_flatten :
    (∀ (cg : String → Option ExtractedData) (sa : Option Nat) (w : ScrollWorld)
        (polls : Nat),
      (extractVariables cg sa w polls).output.Perm
        (extractVariables cg sa w polls).finalState.allExtracted.flatten ∧
      List.Pairwise pairLe (extractVariables cg sa w polls).output) ∧
    (∀ x y : String × String, pairLe x y ↔ x.1 ≤ y.1) ∧
    (("I10.0" : String) < "I2.0") ∧
    sortPairs [("I2.0", "x"), ("I10.0", "y")] = [("I10.0", "y"), ("I2.0", "x")] ∧
    (extractVariables (fun _ => none) none
        ⟨true, [⟨[⟨false, true, some "P1", false, [["I1.0", "A"]]⟩,
                 ⟨false, true, some "P2", false, [["I1.0", "A"]]⟩], 400⟩]⟩ 0).output
      = [("I1.0", "A"), ("I1.0", "A")] := by
  refine ⟨?_, ?_, ?_, by decide, by decide⟩
  · intro cg sa w polls
    rw [extractVariables]
    by_cases h : (!w.containerFound) = true
    · rw [if_pos h]
      exact ⟨List.Perm.refl _, List.Pairwise.nil⟩
    · rw [if_neg h]
      exact ⟨List.perm_insertionSort pairLe _, List.sorted_insertionSort pairLe _⟩
  · intro x y
    exact stringLe_iff x.1 y.1
  · have h1 := (stringLe_iff "I10.0" "I2.0").mp (by decide)
    refine lt_of_le_not_le h1 ?_
    intro hle
    have h2 := (stringLe_iff "I2.0" "I10.0").mpr hle
    exact absurd h2 (by decide)



theorem processItems_stop (cg : String → Option ExtractedData) (sa : Option Nat)
    (it : PageItem) (its : List PageItem) (st : ScrollState)
    (h : checkStop sa st.polls = true) :
    processItems cg sa (it :: its) st = (pollStop sa st).2 := by
  rw [processItems]
  simp [pollStop, h]

theorem scrollLoop_stop (cg : String → Option ExtractedData) (sa : Option Nat)
    (step : ScrollStep) (rest : List ScrollStep) (lastH : Int) (st : ScrollState)
    (h : checkStop sa st.polls = true) :
    scrollLoop cg sa (step :: rest) lastH st = (pollStop sa st).2 := by
  rw [scrollLoop]
  simp [pollStop, h]

theorem runExtraction_stop_not_failure (w : RunWorld) (sa : Option Nat)
    (h1 : w.setupOk = true) (h2 : w.clickLoginOk = true) (h3 : w.loginOk = true)
    (h4 : w.projectPage.projectFound = true) (h5 : w.switchOk = true)
    (h6 : w.scroll.containerFound = true) :
    (runExtraction w sa).raised = false := by
  rw [runExtraction]
  rw [if_neg (by simp [h1])]
  by_cases c0 : checkStop sa 0 = true
  · rw [if_pos c0]
  rw [if_neg c0]
  rw [if_neg (by simp [h2])]
  by_cases c1 : checkStop sa 1 = true
  · rw [if_pos c1]
  rw [if_neg c1]
  rw [if_neg (by simp [h3])]
  by_cases c2 : checkStop sa 2 = true
  · rw [if_pos c2]
  rw [if_neg c2]
  rw [if_neg (by simp [openProject, h4])]
  by_cases c3 : checkStop sa 3 = true
  · rw [if_pos c3]
  rw [if_neg c3]
  rw [if_neg (by simp [h5])]
  by_cases c4 : checkStop sa 4 = true
  · rw [if_pos c4]
  rw [if_neg c4]
  rw [if_neg (by simp [extractVariables, h6])]


set_option maxHeartbeats 1600000 in
theorem runExtraction_cancel_after_three
    (n0 n1 n2 n3 n4 n5 n6 n7 n8 n9 : String)
    (r0 r1 r2 r3 r4 r5 r6 r7 r8 r9 : List (List String))
    (h10 : n1 ≠ n0) (h20 : n2 ≠ n0) (h21 : n2 ≠ n1) :
    (runExtraction
        ⟨true, true, true, ⟨true, []⟩, true, fun _ => none,
          ⟨true, [⟨[⟨false, true, some n0, false, r0⟩, ⟨false, true, some n1, false, r1⟩,
                    ⟨false, true, some n2, false, r2⟩, ⟨false, true, some n3, false, r3⟩,
                    ⟨false, true, some n4, false, r4⟩, ⟨false, true, some n5, false, r5⟩,
                    ⟨false, true, some n6, false, r6⟩, ⟨false, true, some n7, false, r7⟩,
                    ⟨false, true, some n8, false, r8⟩, ⟨false, true, some n9, false, r9⟩],
                   400⟩]⟩⟩
        (some 9)).status = .Cancelled ∧
    (runExtraction
        ⟨true, true, true, ⟨true, []⟩, true, fun _ => none,
          ⟨true, [⟨[⟨false, true, some n0, false, r0⟩, ⟨false, true, some n1, false, r1⟩,
                    ⟨false, true, some n2, false, r2⟩, ⟨false, true, some n3, false, r3⟩,
                    ⟨false, true, some n4, false, r4⟩, ⟨false, true, some n5, false, r5⟩,
                    ⟨false, true, some n6, false, r6⟩, ⟨false, true, some n7, false, r7⟩,
                    ⟨false, true, some n8, false, r8⟩, ⟨false, true, some n9, false, r9⟩],
                   400⟩]⟩⟩
        (some 9)).returned = some true ∧
    (runExtraction
        ⟨true, true, true, ⟨true, []⟩, true, fun _ => none,
          ⟨true, [⟨[⟨false, true, some n0, false, r0⟩, ⟨false, true, some n1, false, r1⟩,
                    ⟨false, true, some n2, false, r2⟩, ⟨false, true, some n3, false, r3⟩,
                    ⟨false, true, some n4, false, r4⟩, ⟨false, true, some n5, false, r5⟩,
                    ⟨false, true, some n6, false, r6⟩, ⟨false, true, some n7, false, r7⟩,
                    ⟨false, true, some n8, false, r8⟩, ⟨false, true, some n9, false, r9⟩],
                   400⟩]⟩⟩
        (some 9)).output
      = some (sortPairs (extractPage r0 ++ extractPage r1 ++ extractPage r2)) := by
  have b10 : (n1 == n0) = false := beq_eq_false_iff_ne.mpr h10
  have b20 : (n2 == n0) = false := beq_eq_false_iff_ne.mpr h20
  have b21 : (n2 == n1) = false := beq_eq_false_iff_ne.mpr h21
  have hso : (extractVariables (fun _ => none) (some 9)
      ⟨true, [⟨[⟨false, true, some n0, false, r0⟩, ⟨false, true, some n1, false, r1⟩,
                ⟨false, true, some n2, false, r2⟩, ⟨false, true, some n3, false, r3⟩,
                ⟨false, true, some n4, false, r4⟩, ⟨false, true, some n5, false, r5⟩,
                ⟨false, true, some n6, false, r6⟩, ⟨false, true, some n7, false, r7⟩,
                ⟨false, true, some n8, false, r8⟩, ⟨false, true, some n9, false, r9⟩],
               400⟩]⟩ 5).finalState.stopObserved = true := by
    simp [extractVariables, scrollLoop, processItems, processItem, pollStop, checkStop,
      initialScrollState, List.contains_cons, b10, b20, b21, h10, h20, h21]
  have hout : (extractVariables (fun _ => none) (some 9)
      ⟨true, [⟨[⟨false, true, some n0, false, r0⟩, ⟨false, true, some n1, false, r1⟩,
                ⟨false, true, some n2, false, r2⟩, ⟨false, true, some n3, false, r3⟩,
                ⟨false, true, some n4, false, r4⟩, ⟨false, true, some n5, false, r5⟩,
                ⟨false, true, some n6, false, r6⟩, ⟨false, true, some n7, false, r7⟩,
                ⟨false, true, some n8, false, r8⟩, ⟨false, true, some n9, false, r9⟩],
               400⟩]⟩ 5).output
      = sortPairs (extractPage r0 ++ extractPage r1 ++ extractPage r2) := by
    simp [extractVariables, scrollLoop, processItems, processItem, pollStop, checkStop,
      initialScrollState, List.contains_cons, b10, b20, b21, h10, h20, h21]
  refine ⟨?_, ?_, ?_⟩
  · rw [runExtraction]
    rw [if_neg (by simp)]
    rw [if_neg (by simp [checkStop])]
    rw [if_neg (by simp)]
    rw [if_neg (by simp [checkStop])]
    rw [if_neg (by simp)]
    rw [if_neg (by simp [checkStop])]
    rw [if_neg (by simp [openProject])]
    rw [if_neg (by simp [checkStop])]
    rw [if_neg (by simp)]
    rw [if_neg (by simp [checkStop])]
    rw [if_neg (by simp [extractVariables])]
    simp [RunResult.status, hso]
  · rw [runExtraction]
    rw [if_neg (by simp)]
    rw [if_neg (by simp [checkStop])]
    rw [if_neg (by simp)]
    rw [if_neg (by simp [checkStop])]
    rw [if_neg (by simp)]
    rw [if_neg (by simp [checkStop])]
    rw [if_neg (by simp [openProject])]
    rw [if_neg (by simp [checkStop])]
    rw [if_neg (by simp)]
    rw [if_neg (by simp [checkStop])]
    rw [if_neg (by simp [extractVariables])]
  · rw [runExtraction]
    rw [if_neg (by simp)]
    rw [if_neg (by simp [checkStop])]
    rw [if_neg (by simp)]
    rw [if_neg (by simp [checkStop])]
    rw [if_neg (by simp)]
    rw [if_neg (by simp [checkStop])]
    rw [if_neg (by simp [openProject])]
    rw [if_neg (by simp [checkStop])]
    rw [if_neg (by simp)]
    rw [if_neg (by simp [checkStop])]
    rw [if_neg (by simp [extractVariables])]
    show some _ = _
    rw [hout]


/-- C8: a stop requested during the scroll-extraction loop truncates the loop
at the next cancellation checkpoint — a positive poll at the top of an outer
iteration or before a per-item extraction stops all further processing — and
a run whose navigation steps succeeded never turns a stop into a failure;
in the claim's scenario, a run over 10 pages whose stop becomes visible at
the checkpoint before the 4th page yields exactly the first 3 pages' data,
flattened and sorted by address, with the run returning `True` (a valid
result) and derived status `Cancelled`. -/
theorem c8_cancellation_partial_result :
    (∀ (cg : String → Option ExtractedData) (sa : Option Nat) (it : PageItem)
        (its : List PageItem) (st : ScrollState), checkStop sa st.polls = true →
      processItems cg sa (it :: its) st = (pollStop sa st).2) ∧
    (∀ (cg : String → Option ExtractedData) (sa : Option Nat) (step : ScrollStep)
        (rest : List ScrollStep) (lastH : Int) (st : ScrollState),
      checkStop sa st.polls = true →
      scrollLoop cg sa (step :: rest) lastH st = (pollStop sa st).2) ∧
    (∀ (w : RunWorld) (sa : Option Nat), w.setupOk = true → w.clickLoginOk = true →
      w.loginOk = true → w.projectPage.projectFound = true → w.switchOk = true →
      w.scroll.containerFound = true → (runExtraction w sa).raised = false) ∧
    (∀ (n0 n1 n2 n3 n4 n5 n6 n7 n8 n9 : String)
        (r0 r1 r2 r3 r4 r5 r6 r7 r8 r9 : List (List String)),
      n1 ≠ n0 → n2 ≠ n0 → n2 ≠ n1 →
      (runExtraction
          ⟨true, true, true, ⟨true, []⟩, true, fun _ => none,
            ⟨true, [⟨[⟨false, true, some n0, false, r0⟩, ⟨false, true, some n1, false, r1⟩,
                      ⟨false, true, some n2, false, r2⟩, ⟨false, true, some n3, false, r3⟩,
                      ⟨false, true, some n4, false, r4⟩, ⟨false, true, some n5, false, r5⟩,
                      ⟨false, true, some n6, false, r6⟩, ⟨false, true, some n7, false, r7⟩,
                      ⟨false, true, some n8, false, r8⟩, ⟨false, true, some n9, false, r9⟩],
                     400⟩]⟩⟩
          (some 9)).status = .Cancelled ∧
      (runExtraction
          ⟨true, true, true, ⟨true, []⟩, true, fun _ => none,
            ⟨true, [⟨[⟨false, true, some n0, false, r0⟩, ⟨false, true, some n1, false, r1⟩,
                      ⟨false, true, some n2, false, r2⟩, ⟨false, true, some n3, false, r3⟩,
                      ⟨false, true, some n4, false, r4⟩, ⟨false, true, some n5, false, r5⟩,
                      ⟨false, true, some n6, false, r6⟩, ⟨false, true, some n7, false, r7⟩,
                      ⟨false, true, some n8, false, r8⟩, ⟨false, true, some n9, false, r9⟩],
                     400⟩]⟩⟩
          (some 9)).returned = some true ∧
      (runExtraction
          ⟨true, true, true, ⟨true, []⟩, true, fun _ => none,
            ⟨true, [⟨[⟨false, true, some n0, false, r0⟩, ⟨false, true, some n1, false, r1⟩,
                      ⟨false, true, some n2, false, r2⟩, ⟨false, true, some n3, false, r3⟩,
                      ⟨false, true, some n4, false, r4⟩, ⟨false, true, some n5, false, r5⟩,
                      ⟨false, true, some n6, false, r6⟩, ⟨false, true, some n7, false, r7⟩,
                      ⟨false, true, some n8, false, r8⟩, ⟨false, true, some n9, false, r9⟩],
                     400⟩]⟩⟩
          (some 9)).output
        = some (sortPairs (extractPage r0 ++ extractPage r1 ++ extractPage r2))) :=
  ⟨processItems_stop, scrollLoop_stop,
    fun w sa h1 h2 h3 h4 h5 h6 => runExtraction_stop_not_failure w sa h1 h2 h3 h4 h5 h6,
    runExtraction_cancel_after_three⟩

/-- Witness for C8 at concrete pages: stop visible at the checkpoint before
page 4 of 10; the run is `Cancelled` with exactly pages 1–3's data, sorted. -/
theorem c8_cancellation_partial_result_witness :
    (runExtraction
        ⟨true, true, true, ⟨true, []⟩, true, fun _ => none,
          ⟨true, [⟨[⟨false, true, some "P0", false, [["I1.0", "A"]]⟩,
                    ⟨false, true, some "P1", false, [["Q2.0", "B"]]⟩,
                    ⟨false, true, some "P2", false, [["I3.0", "C"]]⟩,
                    ⟨false, true, some "P3", false, []⟩,
                    ⟨false, true, some "P4", false, []⟩,
                    ⟨false, true, some "P5", false, []⟩,
                    ⟨false, true, some "P6", false, []⟩,
                    ⟨false, true, some "P7", false, []⟩,
                    ⟨false, true, some "P8", false, []⟩,
                    ⟨false, true, some "P9", false, []⟩],
                   400⟩]⟩⟩
        (some 9)).status = .Cancelled ∧
    (runExtraction
        ⟨true, true, true, ⟨true, []⟩, true, fun _ => none,
          ⟨true, [⟨[⟨false, true, some "P0", false, [["I1.0", "A"]]⟩,
                    ⟨false, true, some "P1", false, [["Q2.0", "B"]]⟩,
                    ⟨false, true, some "P2", false, [["I3.0", "C"]]⟩,
                    ⟨false, true, some "P3", false, []⟩,
                    ⟨false, true, some "P4", false, []⟩,
                    ⟨false, true, some "P5", false, []⟩,
                    ⟨false, true, some "P6", false, []⟩,
                    ⟨false, true, some "P7", false, []⟩,
                    ⟨false, true, some "P8", false, []⟩,
                    ⟨false, true, some "P9", false, []⟩],
                   400⟩]⟩⟩
        (some 9)).returned = some true ∧
    (runExtraction
        ⟨true, true, true, ⟨true, []⟩, true, fun _ => none,
          ⟨true, [⟨[⟨false, true, some "P0", false, [["I1.0", "A"]]⟩,
                    ⟨false, true, some "P1", false, [["Q2.0", "B"]]⟩,
                    ⟨false, true, some "P2", false, [["I3.0", "C"]]⟩,
                    ⟨false, true, some "P3", false, []⟩,
                    ⟨false, true, some "P4", false, []⟩,
                    ⟨false, true, some "P5", false, []⟩,
                    ⟨false, true, some "P6", false, []⟩,
                    ⟨false, true, some "P7", false, []⟩,
                    ⟨false, true, some "P8", false, []⟩,
                    ⟨false, true, some "P9", false, []⟩],
                   400⟩]⟩⟩
        (some 9)).output
      = some (sortPairs (extractPage [["I1.0", "A"]] ++ extractPage [["Q2.0", "B"]]
          ++ extractPage [["I3.0", "C"]])) :=
  c8_cancellation_partial_result.2.2.2 "P0" "P1" "P2" "P3" "P4" "P5" "P6" "P7" "P8" "P9"
    [["I1.0", "A"]] [["Q2.0", "B"]] [["I3.0", "C"]] [] [] [] [] [] [] []
    (by decide) (by decide) (by decide)



theorem processItem_pages_extend (cg : String → Option ExtractedData)
    (st : ScrollState) (it : PageItem) :
    ∃ l, (processItem cg st it).extractedPages = st.extractedPages ++ l := by
  simp only [processItem]
  repeat' split
  all_goals
    first
      | exact ⟨[], (List.append_nil _).symm⟩
      | exact ⟨_, rfl⟩

theorem processItems_pages_extend (cg : String → Option ExtractedData)
    (sa : Option Nat) :
    ∀ (items : List PageItem) (st : ScrollState),
      ∃ l, (processItems cg sa items st).extractedPages = st.extractedPages ++ l := by
  intro items
  induction items with
  | nil => intro st; exact ⟨[], (List.append_nil _).symm⟩
  | cons it its ih =>
    intro st
    rw [processItems]
    by_cases h : (pollStop sa st).1 = true
    · rw [if_pos h]
      exact ⟨[], (List.append_nil _).symm⟩
    · rw [if_neg h]
      obtain ⟨l1, h1⟩ := processItem_pages_extend cg (pollStop sa st).2 it
      obtain ⟨l2, h2⟩ := ih (processItem cg (pollStop sa st).2 it)
      refine ⟨l1 ++ l2, ?_⟩
      rw [h2, h1]
      show (st.extractedPages ++ l1) ++ l2 = st.extractedPages ++ (l1 ++ l2)
      rw [List.append_assoc]

theorem scrollLoop_pages_extend (cg : String → Option ExtractedData)
    (sa : Option Nat) :
    ∀ (steps : List ScrollStep) (lastH : Int) (st : ScrollState),
      ∃ l, (scrollLoop cg sa steps lastH st).extractedPages = st.extractedPages ++ l := by
  intro steps
  induction steps with
  | nil => intro lastH st; exact ⟨[], (List.append_nil _).symm⟩
  | cons step rest ih =>
    intro lastH st
    rw [scrollLoop]
    by_cases h : (pollStop sa st).1 = true
    · rw [if_pos h]
      exact ⟨[], (List.append_nil _).symm⟩
    · rw [if_neg h]
      obtain ⟨l1, h1⟩ := processItems_pages_extend cg sa step.items (pollStop sa st).2
      by_cases hh : (step.newHeight == lastH) = true
      · rw [if_pos hh]
        exact ⟨l1, h1⟩
      · rw [if_neg hh]
        obtain ⟨l2, h2⟩ := ih step.newHeight (processItems cg sa step.items (pollStop sa st).2)
        refine ⟨l1 ++ l2, ?_⟩
        rw [h2, h1, List.append_assoc]
        rfl

theorem scrollLoop_contains_mono (cg : String → Option ExtractedData)
    (sa : Option Nat) (steps : List ScrollStep) (lastH : Int) (st : ScrollState)
    (nm : String) (h : st.extractedPages.contains nm = true) :
    (scrollLoop cg sa steps lastH st).extractedPages.contains nm = true := by
  obtain ⟨l, hl⟩ := scrollLoop_pages_extend cg sa steps lastH st
  rw [hl]
  rw [List.contains_eq_any_beq, List.any_append]
  rw [List.contains_eq_any_beq] at h
  simp [h]


/-- C10 (implicit): in the scroll loop a page's name is appended to
`extracted_pages` BEFORE the click and extraction, so an item whose click
raises a transient error (caught by the per-item handler) leaves only its
name behind — no data, no cache write; any item with an already-recorded
name is skipped entirely; recorded names survive the rest of the loop; and
concretely, a page whose only extraction attempt failed is silently absent
from the final result even when a later scroll iteration re-encounters it. -/
theorem c10_page_marked_before_extraction :
    (∀ (cg : String → Option ExtractedData) (st : ScrollState) (it : PageItem)
        (nm : String), it.staleOnRefetch = false → it.isPlc = true →
      it.name = some nm → st.extractedPages.contains nm = false → cg nm = none →
      it.clickFails = true →
      processItem cg st it = { st with extractedPages := st.extractedPages ++ [nm] }) ∧
    (∀ (cg : String → Option ExtractedData) (st : ScrollState) (it : PageItem)
        (nm : String), it.staleOnRefetch = false → it.isPlc = true →
      it.name = some nm → st.extractedPages.contains nm = true →
      processItem cg st it = st) ∧
    (∀ (cg : String → Option ExtractedData) (sa : Option Nat)
        (steps : List ScrollStep) (lastH : Int) (st : ScrollState) (nm : String),
      st.extractedPages.contains nm = true →
      (scrollLoop cg sa steps lastH st).extractedPages.contains nm = true) ∧
    ((extractVariables (fun _ => none) none
        ⟨true, [⟨[⟨false, true, some "P1", true, [["I1.0", "A"]]⟩], 400⟩,
                ⟨[⟨false, true, some "P1", false, [["I1.0", "A"]]⟩], 800⟩]⟩ 0).output
      = [] ∧
     (extractVariables (fun _ => none) none
        ⟨true, [⟨[⟨false, true, some "P1", true, [["I1.0", "A"]]⟩], 400⟩,
                ⟨[⟨false, true, some "P1", false, [["I1.0", "A"]]⟩], 800⟩]⟩
        0).finalState.extractedPages = ["P1"]) := by
  refine ⟨?_, ?_, scrollLoop_contains_mono, by decide, by decide⟩
  · intro cg st it nm h1 h2 h3 h4 h5 h6
    simp only [processItem, h1, h2, h3, h4, h5, h6, Bool.not_true, Bool.false_eq_true,
      if_false, Bool.not_false, if_true]
  · intro cg st it nm h1 h2 h3 h4
    simp only [processItem, h1, h2, h3, h4, Bool.not_true, Bool.false_eq_true,
      if_false, Bool.not_false, if_true]

/-- Witness for C10: a concrete failing item leaves exactly its name in the
processed list and contributes no data. -/
theorem c10_page_marked_before_extraction_witness :
    processItem (fun _ => none) ⟨[], [], [], 0, false⟩
      ⟨false, true, some "P", true, [["I1.0", "A"]]⟩
      = ⟨[], ["P"], [], 0, false⟩ :=
  c10_page_marked_before_extraction.1 (fun _ => none) ⟨[], [], [], 0, false⟩
    ⟨false, true, some "P", true, [["I1.0", "A"]]⟩ "P" rfl rfl rfl rfl rfl rfl


end EPlan
